import Mathlib

/-!
Verification of the multiscale-pyramid metadata model, the smooth
downsampling step and the crop-filter predicates of `cellmap_utils_kit`
(`attribute_handler.py`, `multiscale.py`, `filter_yaml.py`).

Numeric values that are Python floats in the source are modelled as
rationals (`ℚ`): every claim under consideration is about the formulas
the code computes, none hinges on float rounding.
-/

namespace CellmapUtilsKit

/-- A coordinate transformation entry, i.e. one element of a dataset's
`coordinateTransformations` list: a dict with a `"type"` tag and the
payload vector.  Tags other than `"scale"` / `"translation"` are kept
abstract (`other`), matching the dispatch in
`attribute_handler.get_scale_and_translation`. -/
inductive CT where
  | scale (v : List ℚ)
  | translation (v : List ℚ)
  | other (tag : String)
deriving DecidableEq, Repr

/-- One entry of `multiscales[0]["datasets"]`: a level `path` plus its
`coordinateTransformations` list. -/
structure DSLevel where
  path : String
  cts : List CT
deriving DecidableEq, Repr

/-- The part of a multiscale attributes document the metadata helpers
read and write: the ordered list `multiscales[0]["datasets"]`.  (Axes
and the top-level transform are never consulted by the functions under
verification.) -/
structure MultiscaleAttrs where
  datasets : List DSLevel
deriving DecidableEq, Repr

/-- Model of `attribute_handler.add_scalelevel_to_attributes`: append a new level
record `{path, [{scale}, {translation}]}` to the datasets list.  No
duplicate-name check is performed. -/
def add_scalelevel_to_attributes (attrs : MultiscaleAttrs) (scalelvl : String)
    (scale : List ℚ) (tr : List ℚ) : MultiscaleAttrs :=
  { datasets := attrs.datasets ++ [{ path := scalelvl, cts := [CT.scale scale, CT.translation tr] }] }

/-- The inner loop of `get_scale_and_translation` over one level's
`coordinateTransformations`: scan left to right, remembering the last
`scale` and `translation` seen, and fail immediately on any other tag
(the Python loop raises at that point). -/
def scan_cts : List CT → Option (List ℚ) → Option (List ℚ) →
    Except String (Option (List ℚ) × Option (List ℚ))
  | [], s, t => Except.ok (s, t)
  | CT.scale v :: rest, _, t => scan_cts rest (some v) t
  | CT.translation v :: rest, s, _ => scan_cts rest s (some v)
  | CT.other tag :: _, _, _ =>
      Except.error ("Unknown coordinate transformation type in attributes: " ++ tag)

/-- Model of `attribute_handler.get_scale_and_translation`: find the first level
whose path matches, scan its transforms, and fail if the level is
absent, an unknown transform tag occurs, or scale/translation is
missing. -/
def get_scale_and_translation (attrs : MultiscaleAttrs) (scalelvl : String) :
    Except String (List ℚ × List ℚ) :=
  match attrs.datasets.find? (fun ds => decide (ds.path = scalelvl)) with
  | none => Except.error ("Did not find attributes for " ++ scalelvl)
  | some ds =>
    match scan_cts ds.cts none none with
    | Except.error e => Except.error e
    | Except.ok (some s, some t) => Except.ok (s, t)
    | Except.ok _ =>
        Except.error ("Did not find translation and scale value in attributes for " ++ scalelvl)

/-- First `scale`-tagged transform of a level's transform list (the
inner `break` in `get_res_dict_from_attrs`). -/
def firstScale (cts : List CT) : Option (List ℚ) :=
  cts.findSome? fun ct => match ct with
    | CT.scale v => some v
    | _ => none

/-- Insertion into a Python dict modelled as an association list:
an existing key keeps its position and gets the new value, a new key is
appended (Python dicts preserve insertion order). -/
def dictInsert (d : List (String × List ℚ)) (k : String) (v : List ℚ) :
    List (String × List ℚ) :=
  if d.any (fun p => decide (p.1 = k)) then
    d.map fun p => if p.1 = k then (k, v) else p
  else d ++ [(k, v)]

/-- Model of `attribute_handler.get_res_dict_from_attrs`: for each dataset, in
order, record its first `scale` transform under its path (datasets with
no scale transform contribute nothing). -/
def get_res_dict_from_attrs (attrs : MultiscaleAttrs) : List (String × List ℚ) :=
  attrs.datasets.foldl
    (fun d ds =>
      match firstScale ds.cts with
      | some v => dictInsert d ds.path v
      | none => d)
    []

/-- Model of `attribute_handler.get_scalelevel`: first level name in the res
dict whose scale vector equals the request exactly; `ValueError`
otherwise. -/
def get_scalelevel (attrs : MultiscaleAttrs) (request_scale : List ℚ) :
    Except String String :=
  match (get_res_dict_from_attrs attrs).find? (fun p => decide (p.2 = request_scale)) with
  | some p => Except.ok p.1
  | none => Except.error "Did not find scale level with requested scale"

/-- The encoding record `{present, absent, unknown}` of a
semantic-segmentation annotation. -/
structure Encoding where
  present : ℤ
  absent : ℤ
  unknown : ℤ
deriving DecidableEq, Repr

/-- Model of `multiscale.check_encoding`: `ValueError` unless
`unknown > 8 * max(present, absent)`. -/
def check_encoding (e : Encoding) : Except String Unit :=
  if e.unknown ≤ 8 * max e.present e.absent then
    Except.error "smoothing relies on large value for UNKNOWN"
  else Except.ok ()

/-- The metadata half of one derivation step `l1 → l2` of
`multiscale._smooth_multiscale_labels` (lines 144-154) and
`_smooth_multiscale_raw` (lines 176-184): resolve `l1`'s scale and
translation, then append `l2` with scale `l1.scale * 2` and translation
`l1.scale * 0.5 + l1.translation`, per axis (`zip` truncates to the
shorter vector, as in Python). -/
def multiscale_step_attrs (attrs : MultiscaleAttrs) (l1 l2 : String) :
    Except String MultiscaleAttrs :=
  match get_scale_and_translation attrs l1 with
  | Except.error e => Except.error e
  | Except.ok (s, t) =>
      Except.ok (add_scalelevel_to_attributes attrs l2
        (s.map fun sc => sc * 2)
        ((s.zip t).map fun p => p.1 * 0.5 + p.2))

/-- A 3-D array of (idealised) float values, of shape
`(nz, ny, nx)`; `val` outside the shape is irrelevant. -/
structure Arr3 where
  nz : ℕ
  ny : ℕ
  nx : ℕ
  val : ℕ → ℕ → ℕ → ℚ

/-- Array access as `skimage.transform.downscale_local_mean` sees it:
the array is padded with `cval = 0` up to a multiple of the factor. -/
def Arr3.padval (a : Arr3) (i j k : ℕ) : ℚ :=
  if i < a.nz ∧ j < a.ny ∧ k < a.nx then a.val i j k else 0

/-- Mean of the `2×2×2` block of input voxels feeding output voxel
`(i, j, k)` under factor-2 local-mean downsampling. -/
def blockMean (a : Arr3) (i j k : ℕ) : ℚ :=
  (a.padval (2*i) (2*j) (2*k) + a.padval (2*i) (2*j) (2*k+1)
    + a.padval (2*i) (2*j+1) (2*k) + a.padval (2*i) (2*j+1) (2*k+1)
    + a.padval (2*i+1) (2*j) (2*k) + a.padval (2*i+1) (2*j) (2*k+1)
    + a.padval (2*i+1) (2*j+1) (2*k) + a.padval (2*i+1) (2*j+1) (2*k+1)) / 8

/-- Per-axis output length of `downscale_local_mean(src, 2)`: the input
is zero-padded to a multiple of 2, so the output length is `⌈n/2⌉`. -/
def ceilHalf (n : ℕ) : ℕ := (n + 1) / 2

/-- Per-axis trim applied to the downsampled array:
`(shape // 2) * 2`, i.e. the largest even number `≤ n`
(`downslice = tuple(slice(sh) for sh in (np.array(down.shape)//2)*2)`). -/
def trimEven (n : ℕ) : ℕ := (n / 2) * 2

/-- The array half of one label derivation step of
`_smooth_multiscale_labels` (lines 118-123): factor-2 block-mean
downsampling, trim every axis to `(sh // 2) * 2`, then reset every
voxel strictly above `max(present, absent)` to exactly `unknown`. -/
def smooth_downsample_labels (e : Encoding) (a : Arr3) : Arr3 :=
  { nz := trimEven (ceilHalf a.nz)
    ny := trimEven (ceilHalf a.ny)
    nx := trimEven (ceilHalf a.nx)
    val := fun i j k =>
      let m := blockMean a i j k
      if m > (max e.present e.absent : ℚ) then (e.unknown : ℚ) else m }

/-- The array half of one raw derivation step of
`_smooth_multiscale_raw` (lines 164-166): the same downsampling and
trim, with no quantization. -/
def smooth_downsample_raw (a : Arr3) : Arr3 :=
  { nz := trimEven (ceilHalf a.nz)
    ny := trimEven (ceilHalf a.ny)
    nx := trimEven (ceilHalf a.nx)
    val := fun i j k => blockMean a i j k }

/-- What `filter_yaml`'s per-crop checks read from one scale level of a
label: the array shape and the optional
`cellmap.annotation.complement_counts["unknown"]` attribute. -/
structure CropLevel where
  shape : List ℕ
  unknownCount : Option ℚ

/-- What the checks read from one label class of a crop: the multiscale
attributes of the label group and the per-level data.  Lookups are
total: the checks only ever access levels named in the multiscale
attributes (a missing member would be a `KeyError` in Python, outside
every claim considered here). -/
structure CropLabel where
  ms : MultiscaleAttrs
  levels : String → CropLevel

/-- What the checks read from a crop: the
`labels` group's `cellmap.annotation.class_names` attribute and the
per-class data. -/
structure Crop where
  class_names : List String
  labelData : String → CropLabel

/-- Model of `filter_yaml.check_res`: resolve the requested scale in the
multiscale pyramid of the first listed class; a `ValueError` from
`get_scalelevel` is caught and returned as `False`. -/
def check_res (c : Crop) (check_scale : List ℚ) : Bool :=
  let ref_lbl := c.class_names.headI
  match get_scalelevel (c.labelData ref_lbl).ms check_scale with
  | Except.ok _ => true
  | Except.error _ => false

/-- Model of `filter_yaml.check_min_size`: look up the reference level (`"s0"`
when `at_scale` is `None`, else via `get_scalelevel`, whose
`ValueError` propagates) and require the first class's shape to be at
least `min_size` componentwise (`zip` truncates). -/
def check_min_size (c : Crop) (min_size : List ℕ) (at_scale : Option (List ℚ)) :
    Except String Bool :=
  let ref_lbl := c.class_names.headI
  match (match at_scale with
         | none => Except.ok "s0"
         | some s => get_scalelevel (c.labelData ref_lbl).ms s) with
  | Except.error e => Except.error e
  | Except.ok ref_scale =>
      let shape := ((c.labelData ref_lbl).levels ref_scale).shape
      Except.ok ((shape.zip min_size).all fun p => decide (p.2 ≤ p.1))

/-- Model of `filter_yaml.check_annotated_label`: `ValueError` when
`min_frac_annotated > 1` (before anything is read); `False` when the
label is not a listed class; otherwise compare the annotated fraction
`(num_elements - complement_counts["unknown"]) / num_elements`
(`num_elements` when the `"unknown"` key is absent) against the
threshold. -/
def check_annotated_label (c : Crop) (label : String) (min_frac_annotated : ℚ)
    (at_scale : Option (List ℚ)) : Except String Bool :=
  if 1 < min_frac_annotated then
    Except.error "min_frac_annotated should be given as a fraction"
  else if label ∈ c.class_names then
    match (match at_scale with
           | none => Except.ok "s0"
           | some s => get_scalelevel (c.labelData label).ms s) with
    | Except.error e => Except.error e
    | Except.ok ref_scale =>
        let lvl := (c.labelData label).levels ref_scale
        let num_elements : ℕ := lvl.shape.prod
        let num_annotated : ℚ :=
          match lvl.unknownCount with
          | some u => (num_elements : ℚ) - u
          | none => (num_elements : ℚ)
        Except.ok (decide (min_frac_annotated ≤ num_annotated / (num_elements : ℚ)))
  else Except.ok false

/-- Model of `filter_yaml.check_annotated`: `check_annotated_label` for each
listed label in order, stopping at the first `False`; vacuously `True`
on an empty label list. -/
def check_annotated (c : Crop) : List String → ℚ → Option (List ℚ) → Except String Bool
  | [], _, _ => Except.ok true
  | l :: rest, mf, sc =>
      match check_annotated_label c l mf sc with
      | Except.error e => Except.error e
      | Except.ok true => check_annotated c rest mf sc
      | Except.ok false => Except.ok false

/-- The first two guarded checks of `filter_yaml.filter_crop`:
`keep_crop` after the scale check (skipped when `scale` is `None`) and
the minimum-size check (skipped when `min_size` is `None`, and only run
while `keep_crop` is still true). -/
def filter_crop_sizestage (c : Crop) (scale : Option (List ℚ))
    (min_size : Option (List ℕ)) : Except String Bool :=
  let keep1 : Bool :=
    match scale with
    | some s => check_res c s
    | none => true
  if keep1 then
    match min_size with
    | some ms => check_min_size c ms scale
    | none => Except.ok keep1
  else Except.ok keep1

/-- Model of `filter_yaml.filter_crop`: guarded conjunction of the three checks,
in the order scale, minimum size, annotated fraction; a check whose
condition is `None` is skipped, and a later check only runs while
`keep_crop` is still true. -/
def filter_crop (c : Crop) (scale : Option (List ℚ)) (min_size : Option (List ℕ))
    (min_frac_annotated : Option ℚ) (labels : List String) : Except String Bool :=
  match filter_crop_sizestage c scale min_size with
  | Except.error e => Except.error e
  | Except.ok k2 =>
      if k2 then
        match min_frac_annotated with
        | some mf => check_annotated c labels mf scale
        | none => Except.ok k2
      else Except.ok k2

/-- Specification-side view of the res dict (for comparison with
`get_res_dict_from_attrs`): each dataset, in order, paired with the
first scale transform of its transform list; datasets without a scale
transform are dropped. -/
def levelScales (attrs : MultiscaleAttrs) : List (String × List ℚ) :=
  attrs.datasets.filterMap fun ds => (firstScale ds.cts).map fun v => (ds.path, v)

/-- Specification-side first-match lookup (for comparison with
`get_scalelevel`): the name in the first pair whose scale vector equals
the request exactly. -/
def first_matching_level : List (String × List ℚ) → List ℚ → Option String
  | [], _ => none
  | p :: rest, req => if p.2 = req then some p.1 else first_matching_level rest req

/-- Concrete document with a single level `s0` with scale `(4,4,4)` and
translation `(2,2,2)`, used as input for witnesses. -/
def exAttrsA : MultiscaleAttrs :=
  ⟨[⟨"s0", [CT.scale [4, 4, 4], CT.translation [2, 2, 2]]⟩]⟩

/-- Concrete document with levels `s0` (scale `(8,8,8)`) and `s1`
(scale `(16,16,16)`), used as input for witnesses. -/
def exAttrsB : MultiscaleAttrs :=
  ⟨[⟨"s0", [CT.scale [8, 8, 8], CT.translation [0, 0, 0]]⟩,
    ⟨"s1", [CT.scale [16, 16, 16], CT.translation [4, 4, 4]]⟩]⟩

/-- A concrete crop for witnesses: one class `mito` whose pyramid has a
single level `s0` with scale `(8,8,8)`, array shape `(2,2,2)` and no
unknown voxels. -/
def exCrop : Crop :=
  ⟨["mito"], fun _ =>
    ⟨⟨[⟨"s0", [CT.scale [8, 8, 8], CT.translation [0, 0, 0]]⟩]⟩,
     fun _ => ⟨[2, 2, 2], some 0⟩⟩⟩

/-- The standard label encoding `{present: 1, absent: 0, unknown: 100}`. -/
def exEncoding : Encoding := ⟨1, 0, 100⟩

/-- A zero array with an even leading axis length of 10. -/
def exArrEven : Arr3 := ⟨10, 4, 4, fun _ _ _ => 0⟩

/-- A `4×4×4` label array with a single `unknown = 100` voxel at the
origin and `absent = 0` everywhere else. -/
def exArrQ : Arr3 :=
  ⟨4, 4, 4, fun i j k => if i = 0 ∧ j = 0 ∧ k = 0 then 100 else 0⟩

end CellmapUtilsKit

namespace CellmapUtilsKit

theorem find?_path_append (l l₂ : List DSLevel) (name : String)
    (h : ∀ ds ∈ l, ds.path ≠ name) :
    (l ++ l₂).find? (fun ds => decide (ds.path = name)) =
      l₂.find? (fun ds => decide (ds.path = name)) := by
  induction l with
  | nil => rfl
  | cons hd tl ih =>
    have hne : hd.path ≠ name := h hd (List.mem_cons_self _ _)
    simp only [List.cons_append, List.find?]
    rw [decide_eq_false hne]
    exact ih fun ds hm => h ds (List.mem_cons_of_mem _ hm)

theorem get_after_add (attrs : MultiscaleAttrs) (name : String) (s t : List ℚ)
    (h : ∀ ds ∈ attrs.datasets, ds.path ≠ name) :
    get_scale_and_translation (add_scalelevel_to_attributes attrs name s t) name =
      Except.ok (s, t) := by
  unfold get_scale_and_translation add_scalelevel_to_attributes
  rw [find?_path_append _ _ _ h]
  simp [List.find?, scan_cts]

/-- C5: appending a fresh level to a multiscale attributes document via
`add_scalelevel_to_attributes` and then resolving it via
`get_scale_and_translation` returns exactly the appended scale and
translation vectors. -/
theorem add_then_get_roundtrip (attrs : MultiscaleAttrs) (name : String) (s t : List ℚ)
    (h : ∀ ds ∈ attrs.datasets, ds.path ≠ name) :
    get_scale_and_translation (add_scalelevel_to_attributes attrs name s t) name =
      Except.ok (s, t) :=
  get_after_add attrs name s t h

/-- Witness for C5 on a concrete document: append `s1` with scale
`(8,8,8)` and translation `(4,4,4)` and get the same pair back. -/
theorem add_then_get_roundtrip_witness :
    (∀ ds ∈ exAttrsA.datasets, ds.path ≠ "s1")
    ∧ get_scale_and_translation
        (add_scalelevel_to_attributes exAttrsA "s1" [8, 8, 8] [4, 4, 4]) "s1" =
        Except.ok ([8, 8, 8], [4, 4, 4]) :=
  ⟨by decide, add_then_get_roundtrip exAttrsA "s1" [8, 8, 8] [4, 4, 4] (by decide)⟩

/-- C6: appending two levels with the same (fresh) name but different
transforms is legal, produces two records, and
`get_scale_and_translation` on that name returns the first-appended
scale and translation. -/
theorem duplicate_append_first_wins (attrs : MultiscaleAttrs) (name : String)
    (s₁ t₁ s₂ t₂ : List ℚ)
    (hfresh : ∀ ds ∈ attrs.datasets, ds.path ≠ name)
    (_hdiff : (s₁, t₁) ≠ (s₂, t₂)) :
    get_scale_and_translation
        (add_scalelevel_to_attributes (add_scalelevel_to_attributes attrs name s₁ t₁)
          name s₂ t₂) name = Except.ok (s₁, t₁)
    ∧ (add_scalelevel_to_attributes (add_scalelevel_to_attributes attrs name s₁ t₁)
        name s₂ t₂).datasets.length = attrs.datasets.length + 2 := by
  constructor
  · unfold get_scale_and_translation add_scalelevel_to_attributes
    rw [List.append_assoc, find?_path_append _ _ _ hfresh]
    simp [List.find?, scan_cts]
  · simp [add_scalelevel_to_attributes]

/-- Witness for C6 on a concrete document: append `s1` twice with
different transforms; lookup returns the first pair. -/
theorem duplicate_append_first_wins_witness :
    get_scale_and_translation
        (add_scalelevel_to_attributes (add_scalelevel_to_attributes exAttrsA "s1" [8, 8, 8] [4, 4, 4])
          "s1" [16, 16, 16] [6, 6, 6]) "s1" = Except.ok ([8, 8, 8], [4, 4, 4]) :=
  (duplicate_append_first_wins exAttrsA "s1" [8, 8, 8] [4, 4, 4] [16, 16, 16] [6, 6, 6]
    (by decide) (by decide)).1

/-- C4: one metadata derivation step from `l1` to `l2`: if `l1`
resolves to scale `s` and translation `t`, the step appends `l2` with
scale `2 * s` per axis and translation `t + 0.5 * s` per axis, and
resolving the fresh `l2` returns exactly those vectors. -/
theorem step_scale_translation (attrs : MultiscaleAttrs) (l1 l2 : String) (s t : List ℚ)
    (hscale : get_scale_and_translation attrs l1 = Except.ok (s, t))
    (hfresh : ∀ ds ∈ attrs.datasets, ds.path ≠ l2) :
    ∃ attrs2, multiscale_step_attrs attrs l1 l2 = Except.ok attrs2
      ∧ get_scale_and_translation attrs2 l2 =
          Except.ok (s.map fun sc => sc * 2, (s.zip t).map fun p => p.1 * 0.5 + p.2) := by
  refine ⟨add_scalelevel_to_attributes attrs l2 (s.map fun sc => sc * 2)
      ((s.zip t).map fun p => p.1 * 0.5 + p.2), ?_, get_after_add _ _ _ _ hfresh⟩
  unfold multiscale_step_attrs
  rw [hscale]

/-- Witness for C4: `l1` with scale `(4,4,4)` and translation `(2,2,2)`
derives `l2` with scale `(8,8,8)` and translation `(4,4,4)`. -/
theorem step_scale_translation_witness :
    ∃ attrs2, multiscale_step_attrs exAttrsA "s0" "s1" = Except.ok attrs2
      ∧ get_scale_and_translation attrs2 "s1" = Except.ok ([8, 8, 8], [4, 4, 4]) := by
  obtain ⟨a2, h1, h2⟩ := step_scale_translation exAttrsA "s0" "s1" [4, 4, 4] [2, 2, 2]
    (by rfl) (by decide)
  refine ⟨a2, h1, ?_⟩
  rw [h2]
  simp only [Except.ok.injEq, Prod.mk.injEq]
  exact ⟨by norm_num, by norm_num [List.zip_cons_cons]⟩

/-- C1 counterexample: for an input array whose (even) leading axis has
length 10, one smooth downsampling step persists an axis of length 4,
not `floor(10/2) = 5` — so neither is every even axis halved to
`floor(n/2)`, nor is the output always exactly half the input. -/
theorem smooth_shape_counterexample :
    exArrEven.nz = 10
    ∧ (smooth_downsample_labels exEncoding exArrEven).nz = 4
    ∧ (10 : ℕ) / 2 = 5
    ∧ (smooth_downsample_labels exEncoding exArrEven).nz ≠ 10 / 2 := by
  refine ⟨rfl, rfl, rfl, by decide⟩

/-- C1 (amended): the persisted level's shape equals the factor-2
block-mean downsampled shape `⌈n/2⌉` cropped to `(sh // 2) * 2` per
axis; when the halved intermediate `⌈n/2⌉` is odd the axis is that
value truncated by one; the axis equals `n / 2` exactly for input
lengths divisible by 4, and every output axis length is even. -/
theorem smooth_shape_amended (e : Encoding) (a : Arr3) :
    ((smooth_downsample_labels e a).nz = trimEven (ceilHalf a.nz)
      ∧ (smooth_downsample_labels e a).ny = trimEven (ceilHalf a.ny)
      ∧ (smooth_downsample_labels e a).nx = trimEven (ceilHalf a.nx)
      ∧ (smooth_downsample_raw a).nz = trimEven (ceilHalf a.nz)
      ∧ (smooth_downsample_raw a).ny = trimEven (ceilHalf a.ny)
      ∧ (smooth_downsample_raw a).nx = trimEven (ceilHalf a.nx))
    ∧ ∀ n : ℕ,
      (ceilHalf n % 2 = 1 → trimEven (ceilHalf n) = ceilHalf n - 1)
      ∧ (n % 4 = 0 → trimEven (ceilHalf n) = n / 2)
      ∧ trimEven (ceilHalf n) % 2 = 0 := by
  refine ⟨⟨rfl, rfl, rfl, rfl, rfl, rfl⟩, fun n => ?_⟩
  simp only [ceilHalf, trimEven]
  omega

/-- Witness for the amended C1: the axis rules evaluated at the
concrete input lengths 8 (divisible by 4, halved exactly) and 10 (odd
halved intermediate 5, truncated to 4). -/
theorem smooth_shape_amended_witness :
    trimEven (ceilHalf 8) = 8 / 2 ∧ trimEven (ceilHalf 10) = ceilHalf 10 - 1 :=
  ⟨((smooth_shape_amended exEncoding exArrEven).2 8).2.1 (by decide),
   ((smooth_shape_amended exEncoding exArrEven).2 10).1 (by decide)⟩

/-- C2: in one smooth label downsampling step, every output voxel whose
block mean strictly exceeds `max(present, absent)` is set to exactly
the `unknown` sentinel, and every output voxel whose block mean is at
most that bound keeps its fractional block-mean value. -/
theorem smooth_quantization (e : Encoding) (a : Arr3) (i j k : ℕ)
    (_hi : i < (smooth_downsample_labels e a).nz)
    (_hj : j < (smooth_downsample_labels e a).ny)
    (_hk : k < (smooth_downsample_labels e a).nx) :
    ((max e.present e.absent : ℚ) < blockMean a i j k →
      (smooth_downsample_labels e a).val i j k = (e.unknown : ℚ))
    ∧ (blockMean a i j k ≤ (max e.present e.absent : ℚ) →
      (smooth_downsample_labels e a).val i j k = blockMean a i j k) := by
  constructor <;> intro h
  · show (if blockMean a i j k > (max e.present e.absent : ℚ) then (e.unknown : ℚ)
      else blockMean a i j k) = (e.unknown : ℚ)
    rw [if_pos h]
  · show (if blockMean a i j k > (max e.present e.absent : ℚ) then (e.unknown : ℚ)
      else blockMean a i j k) = blockMean a i j k
    rw [if_neg (not_lt.mpr h)]

/-- Witness for C2: a `4×4×4` block with one `unknown = 100` voxel
among eight has block mean `12.5 > 1` and is reset to exactly `100`;
an all-`absent` block keeps its block mean `0`. -/
theorem smooth_quantization_witness :
    ((max exEncoding.present exEncoding.absent : ℚ) < blockMean exArrQ 0 0 0
      ∧ (smooth_downsample_labels exEncoding exArrQ).val 0 0 0 = (exEncoding.unknown : ℚ))
    ∧ (blockMean exArrQ 1 1 1 ≤ (max exEncoding.present exEncoding.absent : ℚ)
      ∧ (smooth_downsample_labels exEncoding exArrQ).val 1 1 1 = blockMean exArrQ 1 1 1) := by
  have hgt : (max exEncoding.present exEncoding.absent : ℚ) < blockMean exArrQ 0 0 0 := by
    norm_num [blockMean, Arr3.padval, exArrQ, exEncoding]
  have hle : blockMean exArrQ 1 1 1 ≤ (max exEncoding.present exEncoding.absent : ℚ) := by
    norm_num [blockMean, Arr3.padval, exArrQ, exEncoding]
  have hnz : (0 : ℕ) < (smooth_downsample_labels exEncoding exArrQ).nz := by decide
  have hny : (0 : ℕ) < (smooth_downsample_labels exEncoding exArrQ).ny := by decide
  have hnx : (0 : ℕ) < (smooth_downsample_labels exEncoding exArrQ).nx := by decide
  have hnz1 : (1 : ℕ) < (smooth_downsample_labels exEncoding exArrQ).nz := by decide
  have hny1 : (1 : ℕ) < (smooth_downsample_labels exEncoding exArrQ).ny := by decide
  have hnx1 : (1 : ℕ) < (smooth_downsample_labels exEncoding exArrQ).nx := by decide
  exact ⟨⟨hgt, (smooth_quantization exEncoding exArrQ 0 0 0 hnz hny hnx).1 hgt⟩,
    ⟨hle, (smooth_quantization exEncoding exArrQ 1 1 1 hnz1 hny1 hnx1).2 hle⟩⟩

/-- C3: `check_encoding` fails with a `ValueError` if and only if
`unknown ≤ 8 * max(present, absent)`; in particular
`{present:1, absent:0, unknown:100}` succeeds and
`{present:1, absent:0, unknown:8}` fails. -/
theorem check_encoding_iff :
    (∀ e : Encoding,
      (∃ msg, check_encoding e = Except.error msg) ↔ e.unknown ≤ 8 * max e.present e.absent)
    ∧ check_encoding ⟨1, 0, 100⟩ = Except.ok ()
    ∧ (∃ msg, check_encoding ⟨1, 0, 8⟩ = Except.error msg) := by
  refine ⟨fun e => ?_, by rfl, ⟨"smoothing relies on large value for UNKNOWN", by rfl⟩⟩
  unfold check_encoding
  by_cases h : e.unknown ≤ 8 * max e.present e.absent <;> simp [h]

theorem dictInsert_fresh (d : List (String × List ℚ)) (k : String) (v : List ℚ)
    (h : ∀ p ∈ d, p.1 ≠ k) : dictInsert d k v = d ++ [(k, v)] := by
  unfold dictInsert
  rw [if_neg]
  simp only [List.any_eq_true, decide_eq_true_eq, not_exists, not_and]
  exact h

theorem res_dict_foldl (l : List DSLevel) :
    ∀ acc : List (String × List ℚ),
      (∀ p ∈ acc, ∀ ds ∈ l, p.1 ≠ ds.path) →
      (l.map DSLevel.path).Nodup →
      l.foldl
        (fun d ds =>
          match firstScale ds.cts with
          | some v => dictInsert d ds.path v
          | none => d)
        acc
      = acc ++ l.filterMap (fun ds => (firstScale ds.cts).map fun v => (ds.path, v)) := by
  induction l with
  | nil => intro acc _ _; simp
  | cons hd tl ih =>
    intro acc hacc hnodup
    simp only [List.map_cons, List.nodup_cons] at hnodup
    simp only [List.foldl_cons, List.filterMap_cons]
    cases hfs : firstScale hd.cts with
    | none =>
      simp only [Option.map_none]
      exact ih acc (fun p hp ds hds => hacc p hp ds (List.mem_cons_of_mem _ hds)) hnodup.2
    | some v =>
      simp only [Option.map_some]
      rw [dictInsert_fresh acc hd.path v (fun p hp => hacc p hp hd (List.mem_cons_self _ _))]
      rw [ih (acc ++ [(hd.path, v)]) ?_ hnodup.2]
      · simp
      · intro p hp ds hds
        rcases List.mem_append.mp hp with hp | hp
        · exact hacc p hp ds (List.mem_cons_of_mem _ hds)
        · simp only [List.mem_singleton] at hp
          subst hp
          intro hEq
          have hEq2 : hd.path = ds.path := hEq
          apply hnodup.1
          rw [hEq2]
          exact List.mem_map_of_mem DSLevel.path hds

theorem get_res_dict_eq_levelScales (attrs : MultiscaleAttrs)
    (h : (attrs.datasets.map DSLevel.path).Nodup) :
    get_res_dict_from_attrs attrs = levelScales attrs := by
  unfold get_res_dict_from_attrs levelScales
  rw [res_dict_foldl attrs.datasets [] (by simp) h]
  simp

theorem find?_eq_first_matching (L : List (String × List ℚ)) (req : List ℚ) :
    (L.find? (fun p => decide (p.2 = req))).map Prod.fst = first_matching_level L req := by
  induction L with
  | nil => rfl
  | cons hd tl ih =>
    by_cases h : hd.2 = req
    · simp [List.find?, first_matching_level, h]
    · simp only [List.find?, first_matching_level, if_neg h, decide_eq_false h]
      exact ih

theorem first_matching_none_iff (L : List (String × List ℚ)) (req : List ℚ) :
    first_matching_level L req = none ↔ ∀ p ∈ L, p.2 ≠ req := by
  induction L with
  | nil => simp [first_matching_level]
  | cons hd tl ih =>
    by_cases h : hd.2 = req <;> simp [first_matching_level, h, ih]

/-- C7: under the document invariant that level paths are unique,
`get_scalelevel` builds the mapping from each level name to the first
scale transform of that level (`levelScales`), compares scale vectors
by exact equality, returns the first level name whose scale equals the
request, and fails with a `ValueError` if and only if no level's scale
vector equals the request. -/
theorem get_scalelevel_spec (attrs : MultiscaleAttrs) (req : List ℚ)
    (h : (attrs.datasets.map DSLevel.path).Nodup) :
    get_res_dict_from_attrs attrs = levelScales attrs
    ∧ (∀ name, get_scalelevel attrs req = Except.ok name ↔
        first_matching_level (levelScales attrs) req = some name)
    ∧ ((∃ e, get_scalelevel attrs req = Except.error e) ↔
        ∀ p ∈ levelScales attrs, p.2 ≠ req) := by
  have hres := get_res_dict_eq_levelScales attrs h
  refine ⟨hres, ?_, ?_⟩
  · intro name
    unfold get_scalelevel
    rw [hres, ← find?_eq_first_matching]
    cases hf : (levelScales attrs).find? (fun p => decide (p.2 = req)) with
    | none => simp
    | some p => simp
  · unfold get_scalelevel
    rw [hres, ← first_matching_none_iff, ← find?_eq_first_matching]
    cases hf : (levelScales attrs).find? (fun p => decide (p.2 = req)) with
    | none => simp
    | some p => simp

/-- Witness for C7: in a two-level document `get_scalelevel` resolves
`(16,16,16)` to `s1`, and requesting a missing scale `(2,2,2)` fails. -/
theorem get_scalelevel_spec_witness :
    get_scalelevel exAttrsB [16, 16, 16] = Except.ok "s1"
    ∧ (∃ e, get_scalelevel exAttrsB [2, 2, 2] = Except.error e) :=
  ⟨((get_scalelevel_spec exAttrsB [16, 16, 16] (by decide)).2.1 "s1").mpr (by norm_num
      [levelScales, exAttrsB, firstScale, first_matching_level]),
   (get_scalelevel_spec exAttrsB [2, 2, 2] (by decide)).2.2.mpr (by decide)⟩

/-- C8: `filter_crop` evaluates its enabled checks in the order scale,
minimum size, annotated fraction and returns their conjunction: a crop
failing the scale check is excluded regardless of the other filters; a
crop passing scale but failing minimum size is excluded; a crop passing
every enabled check is retained; and passing `None` for a condition
disables that check (a crop that would fail the size check passes when
`min_size` is `None`). -/
theorem filter_crop_composition (c : Crop) (s : List ℚ) (ms : List ℕ) (mf : ℚ)
    (lbls : List String)
    (hres : check_res c s = true)
    (hsize : check_min_size c ms (some s) = Except.ok false)
    (hann : check_annotated c lbls mf (some s) = Except.ok true) :
    (∀ (c₂ : Crop) (s₂ : List ℚ) ms₂ mf₂ lbls₂, check_res c₂ s₂ = false →
        filter_crop c₂ (some s₂) ms₂ mf₂ lbls₂ = Except.ok false)
    ∧ filter_crop c (some s) (some ms) (some mf) lbls = Except.ok false
    ∧ (∀ (c₃ : Crop) (s₃ : List ℚ) (ms₃ : List ℕ) (mf₃ : ℚ) (lbls₃ : List String),
        check_res c₃ s₃ = true →
        check_min_size c₃ ms₃ (some s₃) = Except.ok true →
        check_annotated c₃ lbls₃ mf₃ (some s₃) = Except.ok true →
        filter_crop c₃ (some s₃) (some ms₃) (some mf₃) lbls₃ = Except.ok true)
    ∧ filter_crop c (some s) none (some mf) lbls = Except.ok true := by
  refine ⟨?_, ?_, ?_, ?_⟩
  · intro c₂ s₂ ms₂ mf₂ lbls₂ h₂
    simp [filter_crop, filter_crop_sizestage, h₂]
  · simp [filter_crop, filter_crop_sizestage, hres, hsize]
  · intro c₃ s₃ ms₃ mf₃ lbls₃ h₃r h₃s h₃a
    simp [filter_crop, filter_crop_sizestage, h₃r, h₃s, h₃a]
  · simp [filter_crop, filter_crop_sizestage, hres, hann]

/-- Witness for C8 on a concrete crop possessing scale `(8,8,8)` with
shape `(2,2,2)`: the size filter `min_size = (4,4,4)` excludes it, and
disabling the size filter retains it. -/
theorem filter_crop_composition_witness :
    check_res exCrop [8, 8, 8] = true
    ∧ check_min_size exCrop [4, 4, 4] (some [8, 8, 8]) = Except.ok false
    ∧ filter_crop exCrop (some [8, 8, 8]) (some [4, 4, 4]) (some (1/2)) [] = Except.ok false
    ∧ filter_crop exCrop (some [8, 8, 8]) none (some (1/2)) [] = Except.ok true := by
  have hres : check_res exCrop [8, 8, 8] = true := by rfl
  have hsize : check_min_size exCrop [4, 4, 4] (some [8, 8, 8]) = Except.ok false := by rfl
  have hann : check_annotated exCrop [] (1/2) (some [8, 8, 8]) = Except.ok true := by rfl
  have h := filter_crop_composition exCrop [8, 8, 8] [4, 4, 4] (1/2) [] hres hsize hann
  exact ⟨hres, hsize, h.2.1, h.2.2.2⟩

/-- C9: `check_annotated` on an empty label list is vacuously true for
every crop, threshold and scale; consequently `filter_crop` with the
annotation filter enabled but the (default) empty label list is
identical to `filter_crop` with that filter disabled — it never
excludes a crop through the annotation filter. -/
theorem check_annotated_empty_vacuous (c : Crop) (mf : ℚ) (sc : Option (List ℚ))
    (scale : Option (List ℚ)) (ms : Option (List ℕ)) :
    check_annotated c [] mf sc = Except.ok true
    ∧ filter_crop c scale ms (some mf) [] = filter_crop c scale ms none [] := by
  refine ⟨rfl, ?_⟩
  unfold filter_crop
  cases h : filter_crop_sizestage c scale ms with
  | error e => rfl
  | ok k2 => cases k2 <;> rfl

/-- C10: for a label not listed in the crop's `class_names`,
`check_annotated_label` returns `False` rather than failing when
`min_frac_annotated ≤ 1`, and it fails with a `ValueError` (raised
before any crop data is consulted) exactly when
`min_frac_annotated > 1`. -/
theorem check_annotated_label_unlisted (c : Crop) (label : String) (mf : ℚ)
    (sc : Option (List ℚ)) (h : label ∉ c.class_names) :
    (mf ≤ 1 → check_annotated_label c label mf sc = Except.ok false)
    ∧ ((∃ e, check_annotated_label c label mf sc = Except.error e) ↔ 1 < mf) := by
  constructor
  · intro hle
    unfold check_annotated_label
    rw [if_neg (not_lt.mpr hle), if_neg h]
  · constructor
    · rintro ⟨e, he⟩
      by_contra hnot
      rw [not_lt] at hnot
      unfold check_annotated_label at he
      rw [if_neg (not_lt.mpr hnot), if_neg h] at he
      exact Except.noConfusion he
    · intro hgt
      refine ⟨"min_frac_annotated should be given as a fraction", ?_⟩
      unfold check_annotated_label
      rw [if_pos hgt]

/-- Witness for C10: the label `er` is not among `exCrop`'s classes;
with threshold `1/2` the check returns `False`, with threshold `3/2`
it fails. -/
theorem check_annotated_label_unlisted_witness :
    check_annotated_label exCrop "er" (1/2) none = Except.ok false
    ∧ (∃ e, check_annotated_label exCrop "er" (3/2) none = Except.error e) :=
  ⟨(check_annotated_label_unlisted exCrop "er" (1/2) none (by decide)).1 (by norm_num),
   (check_annotated_label_unlisted exCrop "er" (3/2) none (by decide)).2.mpr (by norm_num)⟩

end CellmapUtilsKit
